import Mathlib

/-!
Shallow embedding of the SimpleCms file-manager core
(`backend/filemanager/models.py`, `utils.py`, `views.py`) and proofs about
its access-control resolution, visibility maintenance, sharing inheritance,
soft-delete lifecycle and recursive sharing.

Django ORM rows become Lean structures; querysets become lists; `timezone.now()`
becomes an explicit `now : Int` parameter threaded through the functions that
consult it.  User / group references are modelled by their numeric ids.
-/

namespace SimpleCms

/-- The five permission types of `FileAccessPermission.PERMISSION_TYPES`. -/
inductive PermissionType
  | read
  | write
  | delete
  | share
  | admin
deriving DecidableEq, Repr

/-- The four visibility states of `FileItem.VISIBILITY_CHOICES`
(`'private'`, `'user'`, `'group'`, `'public'`); `priv` stands for the
source's `'private'`, which is a reserved word in Lean. -/
inductive Visibility
  | priv
  | user
  | group
  | public
deriving DecidableEq, Repr

/-- An authenticated (or anonymous) principal: Django's `request.user`.
`groups` is the list of group ids from `user.groups.all()`. -/
structure Principal where
  id : Nat
  is_authenticated : Bool
  is_superuser : Bool
  groups : List Nat
deriving DecidableEq, Repr

/-- `FileAccessPermission.PERMISSION_PRIORITY`. -/
def PERMISSION_PRIORITY : PermissionType → Nat
  | .read => 1
  | .write => 2
  | .delete => 3
  | .share => 4
  | .admin => 5

/-- A row of the `FileAccessPermission` table.  `file` is the id of the
target `FileItem`; exactly one of `user` / `group` is set in well-formed
rows.  `expires_at` is an optional timestamp. -/
structure FileAccessPermission where
  file : Nat
  user : Option Nat
  group : Option Nat
  permission_type : PermissionType
  expires_at : Option Int
  is_active : Bool
  priority : Nat
deriving DecidableEq, Repr

namespace FileAccessPermission

/-- `FileAccessPermission.is_valid`: active and not expired at `now`
(`timezone.now() > self.expires_at` means expired). -/
def is_valid (now : Int) (p : FileAccessPermission) : Bool :=
  if !p.is_active then false
  else
    match p.expires_at with
    | some t => if now > t then false else true
    | none => true

/-- `FileAccessPermission.has_permission`: the requested type follows from
the grant's type via the hierarchy hard-coded in the source. -/
def has_permission (now : Int) (p : FileAccessPermission)
    (permission_type : PermissionType) : Bool :=
  if !p.is_valid now then false
  else if p.permission_type = .admin then true
  else if p.permission_type = permission_type then true
  else if permission_type = .read &&
      (p.permission_type = .write || p.permission_type = .delete ||
       p.permission_type = .share) then true
  else if permission_type = .write && p.permission_type = .delete then true
  else false

/-- `FileAccessPermission.get_permission_list`: the expanded permission set
of a grant, as the source's literal lists. -/
def get_permission_list (p : FileAccessPermission) : List PermissionType :=
  match p.permission_type with
  | .admin => [.read, .write, .delete, .share, .admin]
  | .delete => [.read, .write, .delete]
  | .write => [.read, .write]
  | .share => [.read, .share]
  | .read => [.read]

end FileAccessPermission

/-- `FileItem.ITEM_TYPES`. -/
inductive ItemType
  | file
  | directory
deriving DecidableEq, Repr

/-- A row of the `FileItem` table, with its related sets inlined:
`shared_users` / `shared_groups` are the many-to-many id sets, and
`access_permissions` is the related `FileAccessPermission` set.
`parent`, `owner`, `deleted_by` and `storage` are nullable foreign keys,
modelled as optional ids. -/
structure FileItem where
  name : String
  item_type : ItemType
  parent : Option Nat
  storage : Option Nat
  owner : Option Nat
  visibility : Visibility
  is_deleted : Bool
  deleted_at : Option Int
  deleted_by : Option Nat
  shared_users : List Nat
  shared_groups : List Nat
  access_permissions : List FileAccessPermission
deriving DecidableEq, Repr

namespace FileItem

/-- `order_by('-priority')` followed by `.first()` on a filtered queryset:
the first element of maximal `priority` (left-most wins on ties, which the
uniqueness constraint rules out for well-formed rows). -/
def highestPriority (ps : List FileAccessPermission) :
    Option FileAccessPermission :=
  ps.foldl
    (fun best p =>
      match best with
      | none => some p
      | some b => if p.priority > b.priority then some p else some b)
    none

/-- `FileItem.get_user_permission`: highest-priority active user-targeted
grant (`user=user, group__isnull=True, is_active=True`). -/
def get_user_permission (item : FileItem) (u : Principal) :
    Option FileAccessPermission :=
  highestPriority (item.access_permissions.filter
    (fun p => p.user = some u.id && p.group = none && p.is_active))

/-- `FileItem.get_group_permission`: highest-priority active group-targeted
grant across the user's groups; `None` when the user has no groups. -/
def get_group_permission (item : FileItem) (u : Principal) :
    Option FileAccessPermission :=
  if u.groups.isEmpty then none
  else
    highestPriority (item.access_permissions.filter
      (fun p =>
        (match p.group with
         | some g => u.groups.contains g
         | none => false) && p.user = none && p.is_active))

/-- `FileItem.can_access`: the access resolver, translated clause by clause
from the source's if-chain. -/
def can_access (now : Int) (item : FileItem) (u : Principal)
    (permission_type : PermissionType) : Bool :=
  if !u.is_authenticated then false
  else if u.is_superuser then true
  else if item.owner = some u.id then true
  else if (match item.get_user_permission u with
           | some p => p.has_permission now permission_type
           | none => false) then true
  else if (match item.get_group_permission u with
           | some p => p.has_permission now permission_type
           | none => false) then true
  else if item.visibility = .public then true
  else if item.visibility = .user then
    item.shared_users.contains u.id
  else if item.visibility = .group then
    u.groups.any (fun g => item.shared_groups.contains g)
  else false

/-- `FileItem.soft_delete`: set the logical-deletion markers. -/
def soft_delete (now : Int) (item : FileItem) (u : Principal) : FileItem :=
  { item with
    is_deleted := true
    deleted_at := some now
    deleted_by := some u.id }

/-- `FileItem.restore`: clear the logical-deletion markers. -/
def restore (item : FileItem) : FileItem :=
  { item with
    is_deleted := false
    deleted_at := none
    deleted_by := none }

/-- `FileItem.update_visibility_from_sharing`: recompute the cached
`visibility` from the grant store and the shared-user / shared-group sets;
`public` is left untouched. -/
def update_visibility_from_sharing (item : FileItem) : FileItem :=
  let has_user_permissions :=
    item.access_permissions.any (fun p => p.user ≠ none && p.is_active)
  let has_group_permissions :=
    item.access_permissions.any (fun p => p.group ≠ none && p.is_active)
  let has_shared_users := !item.shared_users.isEmpty
  let has_shared_groups := !item.shared_groups.isEmpty
  if item.visibility = .public then item
  else if has_user_permissions || has_shared_users then
    { item with visibility := .user }
  else if has_group_permissions || has_shared_groups then
    { item with visibility := .group }
  else
    { item with visibility := .priv }

end FileItem

/-- The sharing triple returned by `determine_file_sharing`:
`(visibility, shared user ids, shared group ids)`. -/
abbrev SharingTriple := Visibility × List Nat × List Nat

/-- `utils.determine_file_sharing`: initial sharing for a node created under
`parent_directory` by `user`, translated clause by clause.  When the explicit
request is not `'private'` it wins; when the parent belongs to someone else
its sharing is inherited; when the actor holds an active non-read explicit
grant on the parent, the parent's sharing is inherited as well; otherwise
the result is private. -/
def determine_file_sharing (parent_directory : Option FileItem)
    (requested_visibility : Visibility)
    (requested_shared_users requested_shared_groups : List Nat)
    (user : Principal) : SharingTriple :=
  if requested_visibility ≠ .priv then
    (requested_visibility, requested_shared_users, requested_shared_groups)
  else
    let fromExplicitPerms : SharingTriple :=
      match parent_directory with
      | some pd =>
        let user_permissions := pd.access_permissions.filter
          (fun p => p.user = some user.id && p.is_active &&
            p.permission_type ≠ .read)
        if !user_permissions.isEmpty then
          match pd.visibility with
          | .user => (.user, pd.shared_users, [])
          | .group => (.group, [], pd.shared_groups)
          | .public => (.public, [], [])
          | .priv => (.priv, [], [])
        else (.priv, [], [])
      | none => (.priv, [], [])
    match parent_directory with
    | some pd =>
      if pd.owner ≠ some user.id then
        match pd.visibility with
        | .user => (.user, pd.shared_users, [])
        | .group => (.group, [], pd.shared_groups)
        | .public => (.public, [], [])
        | .priv => fromExplicitPerms
      else fromExplicitPerms
    | none => (.priv, [], [])

/-- `FileOperationView._copy_file`, restricted to the logical record it
creates: the copy gets a fresh storage id, the actor as owner, the source's
visibility and verbatim copies of `shared_users` / `shared_groups`, and no
`FileAccessPermission` rows (`_copy_file` never creates any). -/
def copy_file_record (orig : FileItem) (new_name : String)
    (destination : Option Nat) (user : Principal) (new_storage : Nat) :
    FileItem :=
  { name := new_name
    item_type := orig.item_type
    parent := destination
    storage := if orig.item_type = .file then some new_storage else none
    owner := some user.id
    visibility := orig.visibility
    is_deleted := false
    deleted_at := none
    deleted_by := none
    shared_users := orig.shared_users
    shared_groups := orig.shared_groups
    access_permissions := [] }

/-- The subtree shape traversed by `_get_recursive_items`: node ids with
their children. -/
inductive Subtree
  | node (id : Nat) (children : List Subtree)
deriving Repr

mutual

/-- `FileItemViewSet._get_recursive_items`: the directory itself first,
then each child followed by that child's own subtree (pre-order). -/
def get_recursive_items : Subtree → List Nat
  | .node i cs => i :: get_recursive_items_children cs

/-- The inner `_traverse` loop over a child list. -/
def get_recursive_items_children : List Subtree → List Nat
  | [] => []
  | c :: rest => get_recursive_items c ++ get_recursive_items_children rest

end

/-- State threaded through `share_recursively`'s loop: the grant table,
the grants created or updated so far, and the names (here: ids) of failed
items. -/
structure ShareState where
  grants : List FileAccessPermission
  created_count : Nat
  failed_items : List Nat
deriving Repr

/-- Replace the first list element satisfying `p` by `f` of it. -/
def updateFirst (p : FileAccessPermission → Bool)
    (f : FileAccessPermission → FileAccessPermission) :
    List FileAccessPermission → List FileAccessPermission
  | [] => []
  | g :: gs => if p g then f g :: gs else g :: updateFirst p f gs

/-- One `(item, permission_type)` step of `share_recursively`'s inner loop:
look up an existing grant for the exact `(file, user, group, type)` tuple;
update it in place when found (re-activating it and refreshing its expiry),
otherwise create a new grant when the serializer validates (`ok`), else
record a failure. -/
def share_step (target_user target_group : Option Nat)
    (expires_at : Option Int) (ok : Bool)
    (st : ShareState) (item : Nat) (pt : PermissionType) : ShareState :=
  let sameKey := fun (g : FileAccessPermission) =>
    g.file = item && g.user = target_user && g.group = target_group &&
      g.permission_type = pt
  if (st.grants.filter sameKey).isEmpty then
    if ok then
      { st with
        grants := st.grants ++
          [{ file := item
             user := target_user
             group := target_group
             permission_type := pt
             expires_at := expires_at
             is_active := true
             priority := PERMISSION_PRIORITY pt }]
        created_count := st.created_count + 1 }
    else
      { st with failed_items := st.failed_items ++ [item] }
  else
    { st with
      grants := updateFirst sameKey
        (fun g =>
          { g with
            expires_at := expires_at
            is_active := true
            priority := PERMISSION_PRIORITY g.permission_type })
        st.grants
      created_count := st.created_count + 1 }

/-- `FileItemViewSet.share_recursively`'s batch loop over
`_get_recursive_items(root)` × `permission_types`.  `serializer_ok item`
abstracts `FileAccessPermissionCreateSerializer.is_valid()` for a fresh
grant on `item`; a failed item is recorded and the loop continues with the
remaining items. -/
def share_recursively (root : Subtree) (target_user target_group : Option Nat)
    (permission_types : List PermissionType) (expires_at : Option Int)
    (serializer_ok : Nat → Bool)
    (grants : List FileAccessPermission) : ShareState :=
  (get_recursive_items root).foldl
    (fun st item =>
      permission_types.foldl
        (fun st2 pt =>
          share_step target_user target_group expires_at
            (serializer_ok item) st2 item pt)
        st)
    { grants := grants, created_count := 0, failed_items := [] }

/-- Modelled from the spec: the visibility fallback of §4.4 step 6, written
from the spec's words — Public grants every requested permission type to any
authenticated principal, UserShared grants iff the principal is in
`sharedUsers`, GroupShared grants iff the principal's groups intersect
`sharedGroups`, Private grants nothing.  Compared against the source's
`can_access` fallback clauses. -/
def spec_visibility_fallback (item : FileItem) (u : Principal) : Bool :=
  match item.visibility with
  | .public => true
  | .user => item.shared_users.contains u.id
  | .group => u.groups.any (fun g => item.shared_groups.contains g)
  | .priv => false

/-- The user-grant signal of `can_access`: the selected explicit
user-targeted grant, if any, decides via `has_permission`. -/
def user_grant_signal (now : Int) (item : FileItem) (u : Principal)
    (pt : PermissionType) : Bool :=
  match item.get_user_permission u with
  | some p => p.has_permission now pt
  | none => false

/-- The group-grant signal of `can_access`. -/
def group_grant_signal (now : Int) (item : FileItem) (u : Principal)
    (pt : PermissionType) : Bool :=
  match item.get_group_permission u with
  | some p => p.has_permission now pt
  | none => false

/-- `has_permission` is `is_valid` conjoined with membership in
`get_permission_list` (shared helper). -/
theorem has_permission_eq (now : Int) (p : FileAccessPermission)
    (q : PermissionType) :
    p.has_permission now q =
      (p.is_valid now && p.get_permission_list.contains q) := by
  rcases p with ⟨f, pu, pg, t, e, a, pr⟩
  cases t <;>
    cases hv : FileAccessPermission.is_valid now ⟨f, pu, pg, _, e, a, pr⟩ <;>
      cases q <;>
        simp [FileAccessPermission.has_permission,
          FileAccessPermission.get_permission_list, hv]

/-- `can_access` laid out as the five-signal priority chain with the
spec-worded visibility fallback at the end (shared helper). -/
theorem can_access_structure (now : Int) (item : FileItem) (u : Principal)
    (pt : PermissionType) :
    item.can_access now u pt =
      (if !u.is_authenticated then false
       else if u.is_superuser then true
       else if item.owner = some u.id then true
       else if user_grant_signal now item u pt then true
       else if group_grant_signal now item u pt then true
       else spec_visibility_fallback item u) := by
  simp only [FileItem.can_access, user_grant_signal, group_grant_signal,
    spec_visibility_fallback]
  cases item.visibility <;> simp

/-- C1: `can_access` follows the spec's priority order — false for an
unauthenticated principal; then superuser, then ownership, each granting
outright; then the explicit user-targeted grant signal, then the
group-targeted grant signal; and only when no explicit grant matched the
visibility fallback, in which Public grants every requested permission type,
UserShared grants iff the principal is in `shared_users`, GroupShared grants
iff the principal's groups intersect `shared_groups`, and Private grants
nothing. -/
theorem can_access_priority_order (now : Int) (item : FileItem)
    (u : Principal) (pt : PermissionType) :
    item.can_access now u pt =
      (if !u.is_authenticated then false
       else if u.is_superuser then true
       else if item.owner = some u.id then true
       else if user_grant_signal now item u pt then true
       else if group_grant_signal now item u pt then true
       else spec_visibility_fallback item u) :=
  can_access_structure now item u pt

/-- C3: `get_permission_list` maps each grant type to exactly the spec's
expansion set — admin to all five types, delete to read/write/delete, write
to read/write, share to read/share (so share implies neither write nor
delete), read to read — and every expansion contains read. -/
theorem get_permission_list_exact (f : Nat) (pu pg : Option Nat)
    (e : Option Int) (a : Bool) (pr : Nat) :
    (FileAccessPermission.get_permission_list ⟨f, pu, pg, .admin, e, a, pr⟩ =
      [.read, .write, .delete, .share, .admin]) ∧
    (FileAccessPermission.get_permission_list ⟨f, pu, pg, .delete, e, a, pr⟩ =
      [.read, .write, .delete]) ∧
    (FileAccessPermission.get_permission_list ⟨f, pu, pg, .write, e, a, pr⟩ =
      [.read, .write]) ∧
    (FileAccessPermission.get_permission_list ⟨f, pu, pg, .share, e, a, pr⟩ =
      [.read, .share]) ∧
    (FileAccessPermission.get_permission_list ⟨f, pu, pg, .read, e, a, pr⟩ =
      [.read]) ∧
    ((FileAccessPermission.get_permission_list
        ⟨f, pu, pg, .share, e, a, pr⟩).contains .write = false) ∧
    ((FileAccessPermission.get_permission_list
        ⟨f, pu, pg, .share, e, a, pr⟩).contains .delete = false) ∧
    (∀ t : PermissionType,
      (FileAccessPermission.get_permission_list
        ⟨f, pu, pg, t, e, a, pr⟩).contains .read = true) := by
  refine ⟨rfl, rfl, rfl, rfl, rfl, rfl, rfl, ?_⟩
  intro t
  cases t <;> rfl

/-- C10: `has_permission` agrees with the expansion-list implementation —
it holds iff the grant is valid and the requested type is in
`get_permission_list`; an invalid grant has no permissions at all. -/
theorem has_permission_iff_valid_and_expanded (now : Int)
    (g : FileAccessPermission) (p : PermissionType) :
    (g.has_permission now p = true ↔
      (g.is_valid now = true ∧ g.get_permission_list.contains p = true)) ∧
    (g.is_valid now = false → g.has_permission now p = false) := by
  constructor
  · rw [has_permission_eq]
    simp
  · intro h
    rw [has_permission_eq, h]
    simp

/-- Witness for C10 at a concrete grant: an unexpired active write grant
permits read, and the same grant deactivated permits nothing. -/
theorem has_permission_iff_valid_and_expanded_witness :
    FileAccessPermission.has_permission 5
      ⟨1, some 2, none, .write, none, true, 2⟩ .read = true ∧
    FileAccessPermission.has_permission 5
      ⟨1, some 2, none, .write, none, false, 2⟩ .read = false := by
  constructor
  · exact (has_permission_iff_valid_and_expanded 5
      ⟨1, some 2, none, .write, none, true, 2⟩ .read).1.mpr
      ⟨by decide, by decide⟩
  · exact (has_permission_iff_valid_and_expanded 5
      ⟨1, some 2, none, .write, none, false, 2⟩ .read).2 (by decide)

/-- C5: `update_visibility_from_sharing` is idempotent — a second run
leaves the visibility the first run produced, for every combination of
current visibility, grants and shared sets — and a node already Public
stays Public. -/
theorem update_visibility_idempotent (item : FileItem) :
    (item.update_visibility_from_sharing).update_visibility_from_sharing =
      item.update_visibility_from_sharing ∧
    ({ item with visibility := .public } :
        FileItem).update_visibility_from_sharing =
      { item with visibility := .public } := by
  rcases item with ⟨n, it, pa, st, ow, vis, d, da, db, su, sg, ap⟩
  constructor
  · simp only [FileItem.update_visibility_from_sharing]
    split_ifs <;> rfl
  · simp [FileItem.update_visibility_from_sharing]

/-- C8: `soft_delete` followed by `restore` clears the deletion markers and
leaves name, parent, owner and visibility exactly as before the deletion. -/
theorem soft_delete_restore_round_trip (now : Int) (item : FileItem)
    (u : Principal) :
    ((item.soft_delete now u).restore).is_deleted = false ∧
    ((item.soft_delete now u).restore).deleted_at = none ∧
    ((item.soft_delete now u).restore).deleted_by = none ∧
    ((item.soft_delete now u).restore).name = item.name ∧
    ((item.soft_delete now u).restore).parent = item.parent ∧
    ((item.soft_delete now u).restore).owner = item.owner ∧
    ((item.soft_delete now u).restore).visibility = item.visibility :=
  ⟨rfl, rfl, rfl, rfl, rfl, rfl, rfl⟩

/-- C9: `can_access` never reads the soft-delete markers — two node states
identical except for `is_deleted` / `deleted_at` / `deleted_by` resolve
identically for every principal and permission type. -/
theorem can_access_ignores_soft_delete_markers (now : Int) (item : FileItem)
    (u : Principal) (pt : PermissionType) (d : Bool) (da : Option Int)
    (db : Option Nat) :
    FileItem.can_access now
      { item with is_deleted := d, deleted_at := da, deleted_by := db } u pt =
      item.can_access now u pt := rfl

/-- Bob: an authenticated, non-superuser principal with no groups. -/
def bob : Principal := ⟨2, true, false, []⟩

/-- An admin grant to Bob on file 1 that is still `is_active` but expired at
time 0 (priority 5, as `save` derives it). -/
def expiredAdminGrant : FileAccessPermission :=
  ⟨1, some 2, none, .admin, some 0, true, 5⟩

/-- A read grant to Bob on file 1, active and unexpired (priority 1). -/
def validReadGrant : FileAccessPermission :=
  ⟨1, some 2, none, .read, none, true, 1⟩

/-- A private file owned by Alice (id 1) carrying both of Bob's grants. -/
def shadowedNode : FileItem :=
  ⟨"f", .file, none, some 1, some 1, .priv, false, none, none, [], [],
    [expiredAdminGrant, validReadGrant]⟩

/-- Counterexample to C2: on `shadowedNode` a valid user-targeted grant for
Bob whose expansion contains `read` exists (`validReadGrant`), yet
`can_access` denies Bob `read` — the user-grant step consulted only the
highest-priority *active* grant, the expired admin grant, and fell through
without ever considering the valid lower-priority grant. -/
theorem user_grant_shadowing_counterexample :
    bob.is_authenticated = true ∧
    bob.is_superuser = false ∧
    shadowedNode.owner ≠ some bob.id ∧
    shadowedNode.access_permissions.contains validReadGrant = true ∧
    validReadGrant.user = some bob.id ∧
    validReadGrant.group = none ∧
    validReadGrant.is_valid 10 = true ∧
    validReadGrant.get_permission_list.contains .read = true ∧
    shadowedNode.can_access 10 bob .read = false := by
  refine ⟨rfl, rfl, by decide, by decide, rfl, rfl, by decide, by decide,
    by decide⟩

/-- C2 as amended: the user-grant signal selects the highest-priority
*active* user-targeted grant, ignoring validity during selection; access is
granted at this step iff that selected grant is valid and its expansion
contains the requested type, and otherwise — in particular for an
active-but-expired grant — `can_access` falls through to the group-grant
signal and then the visibility fallback. -/
theorem user_grant_signal_uses_highest_priority_active (now : Int)
    (item : FileItem) (u : Principal) (pt : PermissionType)
    (hauth : u.is_authenticated = true) (hsu : u.is_superuser = false)
    (hown : ¬ item.owner = some u.id) :
    (∀ p, item.get_user_permission u = some p →
      p ∈ item.access_permissions.filter
        (fun q => q.user = some u.id && q.group = none && q.is_active) ∧
      ∀ q ∈ item.access_permissions.filter
        (fun q => q.user = some u.id && q.group = none && q.is_active),
        q.priority ≤ p.priority) ∧
    (user_grant_signal now item u pt =
      (match item.get_user_permission u with
       | some p => p.is_valid now && p.get_permission_list.contains pt
       | none => false)) ∧
    (∀ p, item.get_user_permission u = some p → p.is_valid now = false →
      item.can_access now u pt =
        (if group_grant_signal now item u pt then true
         else spec_visibility_fallback item u)) := by
  refine ⟨?_, ?_, ?_⟩
  · intro p hp
    have key : ∀ (ps : List FileAccessPermission) (b : FileAccessPermission),
        FileItem.highestPriority ps = some b →
        b ∈ ps ∧ ∀ q ∈ ps, q.priority ≤ b.priority := by
      intro ps
      have main : ∀ (acc : Option FileAccessPermission)
          (b : FileAccessPermission),
          ps.foldl (fun best p =>
            match best with
            | none => some p
            | some c => if p.priority > c.priority then some p else some c)
            acc = some b →
          (b ∈ ps ∨ acc = some b) ∧
          (∀ q ∈ ps, q.priority ≤ b.priority) ∧
          (∀ c, acc = some c → c.priority ≤ b.priority) := by
        induction ps with
        | nil =>
          intro acc b h
          simp only [List.foldl_nil] at h
          refine ⟨Or.inr h, by simp, ?_⟩
          intro c hc
          rw [h] at hc
          cases hc
          exact le_refl _
        | cons x xs ih =>
          intro acc b h
          simp only [List.foldl_cons] at h
          rcases acc with _ | c
          · rcases ih (some x) b h with ⟨hmem, hub, hacc⟩
            refine ⟨?_, ?_, ?_⟩
            · rcases hmem with hm | hm
              · exact Or.inl (List.mem_cons_of_mem _ hm)
              · cases hm; exact Or.inl (List.mem_cons_self _ _)
            · intro q hq
              rcases List.mem_cons.mp hq with hq | hq
              · subst hq; exact hacc _ rfl
              · exact hub _ hq
            · intro c hc; cases hc
          · by_cases hcmp : x.priority > c.priority
            · simp only [if_pos hcmp] at h
              rcases ih (some x) b h with ⟨hmem, hub, hacc⟩
              refine ⟨?_, ?_, ?_⟩
              · rcases hmem with hm | hm
                · exact Or.inl (List.mem_cons_of_mem _ hm)
                · cases hm; exact Or.inl (List.mem_cons_self _ _)
              · intro q hq
                rcases List.mem_cons.mp hq with hq | hq
                · subst hq; exact hacc _ rfl
                · exact hub _ hq
              · intro d hd
                cases hd
                exact le_trans (le_of_lt hcmp) (hacc _ rfl)
            · simp only [if_neg hcmp] at h
              rcases ih (some c) b h with ⟨hmem, hub, hacc⟩
              refine ⟨?_, ?_, ?_⟩
              · rcases hmem with hm | hm
                · exact Or.inl (List.mem_cons_of_mem _ hm)
                · exact Or.inr hm
              · intro q hq
                rcases List.mem_cons.mp hq with hq | hq
                · subst hq
                  exact le_trans (le_of_not_lt hcmp) (hacc _ rfl)
                · exact hub _ hq
              · exact hacc
      intro b h
      rcases main none b h with ⟨hmem, hub, _⟩
      rcases hmem with hm | hm
      · exact ⟨hm, hub⟩
      · cases hm
    exact key _ p hp
  · unfold user_grant_signal
    cases hup : item.get_user_permission u with
    | none => rfl
    | some p => simp [has_permission_eq]
  · intro p hp hinv
    rw [can_access_structure]
    have hsig : user_grant_signal now item u pt = false := by
      unfold user_grant_signal
      rw [hp]
      show p.has_permission now pt = false
      rw [has_permission_eq, hinv]
      rfl
    rw [hsig]
    simp [hauth, hsu, hown]

/-- Witness for the amended C2 on `shadowedNode` at time 10: the selected
grant is the expired admin grant, the signal is false, and `can_access`
reduces to the group/visibility fall-through, which denies. -/
theorem user_grant_signal_uses_highest_priority_active_witness :
    (expiredAdminGrant ∈ shadowedNode.access_permissions.filter
      (fun q => q.user = some bob.id && q.group = none && q.is_active)) ∧
    user_grant_signal 10 shadowedNode bob .read = false ∧
    shadowedNode.can_access 10 bob .read =
      (if group_grant_signal 10 shadowedNode bob .read then true
       else spec_visibility_fallback shadowedNode bob) := by
  have h := user_grant_signal_uses_highest_priority_active 10 shadowedNode
    bob .read rfl rfl (by decide)
  refine ⟨(h.1 expiredAdminGrant (by decide)).1, ?_, ?_⟩
  · rw [h.2.1]
    decide
  · exact h.2.2 expiredAdminGrant (by decide) (by decide)

/-- Alice: an authenticated, non-superuser principal with no groups. -/
def alice : Principal := ⟨1, true, false, []⟩

/-- Directory D: owned by Alice, shared as GroupShared with group 7
("designers"), with no explicit permission grants. -/
def dirD : FileItem :=
  ⟨"D", .directory, none, none, some 1, .group, false, none, none, [], [7],
    []⟩

/-- Counterexample to C4: Alice owns `dirD` (GroupShared with group 7);
creating a child under it with requested visibility Private yields
`('private', [], [])`, not `('group', [], [7])` — `determine_file_sharing`
only inherits the parent's sharing when the actor is not the parent's owner
or holds an active non-read grant on the parent, and owner Alice matches
neither condition. -/
theorem owner_child_does_not_inherit_counterexample :
    dirD.owner = some alice.id ∧
    dirD.visibility = .group ∧
    dirD.shared_groups = [7] ∧
    determine_file_sharing (some dirD) .priv [] [] alice =
      (.priv, [], []) ∧
    ¬ determine_file_sharing (some dirD) .priv [] [] alice =
      (.group, [], [7]) := by
  refine ⟨rfl, rfl, rfl, by decide, by decide⟩

/-- C4 as amended: under a GroupShared parent directory, a child requested
as Private inherits GroupShared with the parent's shared groups only when
the creator is not the parent's owner, or holds an active non-read explicit
grant on the parent; the parent's owner with no such grant gets a Private
child with empty shared sets. -/
theorem child_inherits_group_sharing (pd : FileItem) (user : Principal)
    (rsu rsg : List Nat) (hvis : pd.visibility = .group) :
    (¬ pd.owner = some user.id →
      determine_file_sharing (some pd) .priv rsu rsg user =
        (.group, [], pd.shared_groups)) ∧
    ((pd.access_permissions.filter
        (fun p => p.user = some user.id && p.is_active &&
          p.permission_type ≠ .read)).isEmpty = false →
      determine_file_sharing (some pd) .priv rsu rsg user =
        (.group, [], pd.shared_groups)) ∧
    (pd.owner = some user.id →
      (pd.access_permissions.filter
        (fun p => p.user = some user.id && p.is_active &&
          p.permission_type ≠ .read)).isEmpty = true →
      determine_file_sharing (some pd) .priv rsu rsg user =
        (.priv, [], [])) := by
  refine ⟨?_, ?_, ?_⟩
  · intro hown
    simp [determine_file_sharing, hvis, hown]
  · intro hperm
    simp at hperm
    by_cases hown : pd.owner = some user.id
    · simp [determine_file_sharing, hvis, hown, hperm]
    · simp [determine_file_sharing, hvis, hown]
  · intro hown hperm
    simp at hperm
    simp only [determine_file_sharing]
    simp [hvis, hown]
    exact hperm

/-- Witness for the amended C4: Bob (not the owner) creating under `dirD`
inherits GroupShared with group 7, while owner Alice gets a Private child. -/
theorem child_inherits_group_sharing_witness :
    determine_file_sharing (some dirD) .priv [] [] bob =
      (.group, [], [7]) ∧
    determine_file_sharing (some dirD) .priv [] [] alice =
      (.priv, [], []) :=
  ⟨(child_inherits_group_sharing dirD bob [] [] rfl).1 (by decide),
   (child_inherits_group_sharing dirD alice [] [] rfl).2.2 rfl rfl⟩

/-- C6: the copy produced by `_copy_file` carries the source's visibility
and verbatim `shared_users` / `shared_groups`, a fresh storage id for files,
and no explicit permission grants; consequently the copy is entirely
independent of the source's grant list, and access to the copy is decided
only by authentication, superuser status, the copy's new ownership and its
visibility / shared sets. -/
theorem copy_duplicates_sharing_not_grants (orig : FileItem) (nm : String)
    (dest : Option Nat) (user : Principal) (ns : Nat) :
    (copy_file_record orig nm dest user ns).shared_users =
      orig.shared_users ∧
    (copy_file_record orig nm dest user ns).shared_groups =
      orig.shared_groups ∧
    (copy_file_record orig nm dest user ns).visibility = orig.visibility ∧
    (copy_file_record orig nm dest user ns).access_permissions = [] ∧
    (copy_file_record orig nm dest user ns).storage =
      (if orig.item_type = .file then some ns else none) ∧
    (∀ perms : List FileAccessPermission,
      copy_file_record { orig with access_permissions := perms } nm dest
          user ns =
        copy_file_record orig nm dest user ns) ∧
    (∀ (now : Int) (p : Principal) (pt : PermissionType),
      FileItem.can_access now (copy_file_record orig nm dest user ns) p pt =
        (if !p.is_authenticated then false
         else if p.is_superuser then true
         else if some user.id = some p.id then true
         else spec_visibility_fallback
           (copy_file_record orig nm dest user ns) p)) := by
  refine ⟨rfl, rfl, rfl, rfl, rfl, fun perms => rfl, ?_⟩
  intro now p pt
  rw [can_access_structure]
  have h1 : user_grant_signal now (copy_file_record orig nm dest user ns)
      p pt = false := rfl
  have h2 : group_grant_signal now (copy_file_record orig nm dest user ns)
      p pt = false := by
    unfold group_grant_signal FileItem.get_group_permission
    by_cases hg : p.groups.isEmpty <;>
      simp [hg, copy_file_record, FileItem.highestPriority]
  rw [h1, h2]
  rfl

/-- The identity of a grant row for upsert purposes: target file, target
user, target group and permission type (the tuple `share_recursively` and
the uniqueness constraint key on). -/
def key_match (tu tg : Option Nat) (i : Nat) (pt : PermissionType)
    (g : FileAccessPermission) : Bool :=
  g.file = i && g.user = tu && g.group = tg && g.permission_type = pt

/-- `updateFirst` with a key-preserving update leaves any key-membership
test unchanged. -/
theorem updateFirst_any_key (p K : FileAccessPermission → Bool)
    (f : FileAccessPermission → FileAccessPermission)
    (hf : ∀ g, K (f g) = K g) :
    ∀ gs : List FileAccessPermission,
      (updateFirst p f gs).any K = gs.any K := by
  intro gs
  induction gs with
  | nil => rfl
  | cons g gs ih =>
    unfold updateFirst
    by_cases hp : p g = true <;> simp [hp, List.any_cons, hf, ih]

/-- One `share_step` preserves the presence of any grant key already in the
table (updates keep the key fields; creations only append). -/
theorem share_step_preserves_key (tu tg : Option Nat) (e : Option Int)
    (ok : Bool) (st : ShareState) (j : Nat) (q : PermissionType) (i : Nat)
    (pt : PermissionType)
    (h : st.grants.any (key_match tu tg i pt) = true) :
    (share_step tu tg e ok st j q).grants.any (key_match tu tg i pt) =
      true := by
  unfold share_step
  by_cases h1 : (st.grants.filter
      (fun g => g.file = j && g.user = tu && g.group = tg &&
        g.permission_type = q)).isEmpty = true
  · by_cases h2 : ok = true <;> simp [h1, h2, List.any_append, h]
  · simp only [h1, Bool.false_eq_true, if_false, if_neg]
    rw [updateFirst_any_key]
    · exact h
    · intro g; rfl

/-- A `share_step` with a validating serializer leaves the table holding a
grant with the step's own key — freshly appended when absent, updated in
place when present. -/
theorem share_step_creates_key (tu tg : Option Nat) (e : Option Int)
    (st : ShareState) (i : Nat) (pt : PermissionType) :
    (share_step tu tg e true st i pt).grants.any (key_match tu tg i pt) =
      true := by
  unfold share_step
  by_cases h1 : (st.grants.filter
      (fun g => g.file = i && g.user = tu && g.group = tg &&
        g.permission_type = pt)).isEmpty = true
  · simp [h1, List.any_append, key_match]
  · simp only [h1, Bool.false_eq_true, if_false, if_neg]
    rw [updateFirst_any_key]
    · have hne : st.grants.filter
          (fun g => g.file = i && g.user = tu && g.group = tg &&
            g.permission_type = pt) ≠ [] := by
        simpa [List.isEmpty_iff] using h1
      rcases List.exists_mem_of_ne_nil _ hne with ⟨g, hg⟩
      have hmem := List.mem_of_mem_filter hg
      have hkey := List.of_mem_filter hg
      exact List.any_eq_true.mpr ⟨g, hmem, hkey⟩
    · intro g; rfl

/-- The inner permission-type fold preserves key presence. -/
theorem foldl_pts_preserves_key (tu tg : Option Nat) (e : Option Int)
    (okb : Bool) (i : Nat) (pt : PermissionType) :
    ∀ (pts : List PermissionType) (st : ShareState) (j : Nat),
      st.grants.any (key_match tu tg i pt) = true →
      ((pts.foldl (fun st2 q => share_step tu tg e okb st2 j q) st).grants.any
        (key_match tu tg i pt)) = true := by
  intro pts
  induction pts with
  | nil => intro st j h; exact h
  | cons q rest ih =>
    intro st j h
    exact ih _ j (share_step_preserves_key tu tg e okb st j q i pt h)

/-- The whole outer item fold preserves key presence. -/
theorem foldl_items_preserves_key (tu tg : Option Nat) (e : Option Int)
    (ok : Nat → Bool) (pts : List PermissionType) (i : Nat)
    (pt : PermissionType) :
    ∀ (items : List Nat) (st : ShareState),
      st.grants.any (key_match tu tg i pt) = true →
      ((items.foldl (fun st item => pts.foldl
          (fun st2 q => share_step tu tg e (ok item) st2 item q) st)
          st).grants.any (key_match tu tg i pt)) = true := by
  intro items
  induction items with
  | nil => intro st h; exact h
  | cons j rest ih =>
    intro st h
    exact ih _ (foldl_pts_preserves_key tu tg e (ok j) i pt pts st j h)

/-- After the inner fold over the requested permission types with a
validating serializer, every requested type has a grant on the item. -/
theorem foldl_pts_creates_key (tu tg : Option Nat) (e : Option Int)
    (i : Nat) :
    ∀ (pts : List PermissionType) (st : ShareState) (pt : PermissionType),
      pt ∈ pts →
      ((pts.foldl (fun st2 q => share_step tu tg e true st2 i q) st).grants.any
        (key_match tu tg i pt)) = true := by
  intro pts
  induction pts with
  | nil => intro st pt h; cases h
  | cons q rest ih =>
    intro st pt h
    rcases List.mem_cons.mp h with hq | hq
    · subst hq
      exact foldl_pts_preserves_key tu tg e true i pt rest _ i
        (share_step_creates_key tu tg e st i pt)
    · exact ih _ pt hq

/-- Over the outer item fold with an everywhere-validating serializer,
every listed item ends up holding a grant for every requested type. -/
theorem foldl_items_creates_key (tu tg : Option Nat) (e : Option Int)
    (pts : List PermissionType) (i : Nat) (pt : PermissionType)
    (hpt : pt ∈ pts) :
    ∀ (items : List Nat) (st : ShareState), i ∈ items →
      ((items.foldl (fun st item => pts.foldl
          (fun st2 q => share_step tu tg e true st2 item q) st) st).grants.any
        (key_match tu tg i pt)) = true := by
  intro items
  induction items with
  | nil => intro st hi; cases hi
  | cons j rest ih =>
    intro st hi
    rcases List.mem_cons.mp hi with hj | hj
    · subst hj
      simp only [List.foldl_cons]
      exact foldl_items_preserves_key tu tg e (fun _ => true) pts i pt rest _
        (foldl_pts_creates_key tu tg e i pts st pt hpt)
    · simp only [List.foldl_cons]
      exact ih _ hj

/-- The scenario tree: directory 1 containing one subdirectory (2) and one
file (3). -/
def treeD : Subtree := .node 1 [.node 2 [], .node 3 []]

/-- First recursive share of `treeD` with user 2, types `['read']`, on an
empty grant table with a validating serializer. -/
def shareRun1 : ShareState :=
  share_recursively treeD (some 2) none [.read] none (fun _ => true) []

/-- Re-run of the same recursive share on the resulting grant table. -/
def shareRun2 : ShareState :=
  share_recursively treeD (some 2) none [.read] none (fun _ => true)
    shareRun1.grants

/-- The same share with the serializer rejecting item 2 (the subdirectory). -/
def shareRunFail : ShareState :=
  share_recursively treeD (some 2) none [.read] none (fun i => i != 2) []

/-- C7: `share_recursively` upserts one grant per (node, requested type)
over the root and every descendant — in general, every enumerated item gets
a grant for every requested type when the serializer validates — and on the
scenario tree (a directory with one subdirectory and one file, types
`['read']`) exactly three grants result, a re-run updates them in place
without duplicating, and a per-item serializer failure is collected while
the remaining items are still processed. -/
theorem share_recursively_upserts_per_item
    (root : Subtree) (tu tg : Option Nat) (pts : List PermissionType)
    (e : Option Int) (gs : List FileAccessPermission) (i : Nat)
    (pt : PermissionType) (hi : i ∈ get_recursive_items root)
    (hpt : pt ∈ pts) :
    ((share_recursively root tu tg pts e (fun _ => true) gs).grants.any
      (key_match tu tg i pt)) = true ∧
    get_recursive_items treeD = [1, 2, 3] ∧
    shareRun1.grants =
      [⟨1, some 2, none, .read, none, true, 1⟩,
       ⟨2, some 2, none, .read, none, true, 1⟩,
       ⟨3, some 2, none, .read, none, true, 1⟩] ∧
    shareRun1.created_count = 3 ∧
    shareRun1.failed_items = [] ∧
    shareRun2.grants = shareRun1.grants ∧
    shareRun2.created_count = 3 ∧
    shareRun2.failed_items = [] ∧
    shareRunFail.grants =
      [⟨1, some 2, none, .read, none, true, 1⟩,
       ⟨3, some 2, none, .read, none, true, 1⟩] ∧
    shareRunFail.created_count = 2 ∧
    shareRunFail.failed_items = [2] := by
  refine ⟨?_, by decide, by decide, by decide, by decide, by decide,
    by decide, by decide, by decide, by decide, by decide⟩
  exact foldl_items_creates_key tu tg e pts i pt hpt
    (get_recursive_items root) _ hi

/-- Witness for C7: on the scenario tree, the file (item 3) holds a read
grant for user 2 after the recursive share. -/
theorem share_recursively_upserts_per_item_witness :
    ((share_recursively treeD (some 2) none [.read] none (fun _ => true)
      []).grants.any (key_match (some 2) none 3 .read)) = true :=
  (share_recursively_upserts_per_item treeD (some 2) none [.read] none []
    3 .read (by decide) (by decide)).1

end SimpleCms
